import Mathlib

/-!
Verification of the TaxGraph reconciliation / fraud-detection / risk-scoring core.

Shallow embedding of the backend services (`reconciliation.py`, `fraud.py`,
`risk.py`, `ingestion.py`). Monetary amounts are modelled as exact rationals;
pandas DataFrames become lists of records; the Neo4j multigraph becomes a list
of directed edges carrying invoice attributes.
-/

attribute [local semireducible] Rat.add Rat.mul Rat.sub Rat.inv Rat.ofScientific

namespace TaxGraph

/-- Python's `round(q, d)` on exact values: round to `d` decimal places
(round to nearest, computed as `floor (x + 1/2)` of the scaled value). -/
def pyRound (d : ℕ) (q : ℚ) : ℚ :=
  ((q * (10 : ℚ) ^ d + 1 / 2).floor : ℚ) / (10 : ℚ) ^ d

/-! ## Risk scoring (`risk.py`, `compute_risk_score`) -/

/-- The feature vector consumed by `compute_risk_score`
(the fields of the `features` dict that the scoring rules read). -/
structure RiskFeatures where
  isKnownFraud : Bool
  itcToSales : ℚ
  zeroCashTaxMonths : ℕ
  pagerankScore : ℚ
  totalOutwardValue : ℚ
  inDegree : ℕ
  outDegree : ℕ
  totalInvoicesIssued : ℕ
deriving DecidableEq, Repr

/-- `compute_risk_score`: weighted heuristic, clamped to `[0, 1]`. -/
def computeRiskScore (f : RiskFeatures) : ℚ :=
  let score : ℚ :=
    if f.isKnownFraud then 0.95
    else
      (if f.itcToSales > 0.9 then 0.25 else if f.itcToSales > 0.5 then 0.10 else 0)
      + (if f.zeroCashTaxMonths ≥ 3 then 0.20 else if f.zeroCashTaxMonths ≥ 1 then 0.10 else 0)
      + (if f.pagerankScore < 0.005 ∧ f.totalOutwardValue > 5000000 then 0.25 else 0)
      + (if f.inDegree + f.outDegree > 20 then 0.05 else 0)
      + (if 0 < f.totalInvoicesIssued ∧
            f.totalOutwardValue / (f.totalInvoicesIssued : ℚ) > 1000000 then 0.10 else 0)
  min (pyRound 4 score) 1

inductive RiskLevel
  | CRITICAL
  | HIGH
  | MEDIUM
  | LOW
deriving DecidableEq, Repr

/-- Risk-level thresholds applied to the computed score. -/
def riskLevel (score : ℚ) : RiskLevel :=
  if score > 0.85 then .CRITICAL
  else if score > 0.65 then .HIGH
  else if score > 0.35 then .MEDIUM
  else .LOW

/-- C3: a known-fraud label forces the score to exactly 0.95,
independently of every other feature. -/
theorem knownFraud_score_095 (f : RiskFeatures) (h : f.isKnownFraud = true) :
    computeRiskScore f = 0.95 ∧ (0.95 : ℚ) ≤ computeRiskScore f := by
  have : computeRiskScore f = min (pyRound 4 0.95) 1 := by
    simp [computeRiskScore, h]
  rw [this]
  constructor <;> decide

/-- Witness for `knownFraud_score_095` at a concrete feature vector. -/
theorem knownFraud_score_095_witness :
    computeRiskScore ⟨true, 2, 5, 0, 99999999, 30, 30, 1⟩ = 0.95 ∧
      (0.95 : ℚ) ≤ computeRiskScore ⟨true, 2, 5, 0, 99999999, 30, 30, 1⟩ :=
  knownFraud_score_095 ⟨true, 2, 5, 0, 99999999, 30, 30, 1⟩ rfl

/-- C10: without a known-fraud label the score is at most 0.85
(the sum of all rule weights), so the risk level is never CRITICAL. -/
theorem unlabeled_score_le_085 (f : RiskFeatures) (h : f.isKnownFraud = false) :
    computeRiskScore f ≤ 0.85 ∧ riskLevel (computeRiskScore f) ≠ RiskLevel.CRITICAL := by
  unfold computeRiskScore
  rw [h]
  simp only [Bool.false_eq_true, if_false]
  split_ifs <;> (constructor <;> decide)

/-- Witness for `unlabeled_score_le_085` at a concrete feature vector. -/
theorem unlabeled_score_le_085_witness :
    computeRiskScore ⟨false, 2, 5, 0, 99999999, 30, 10, 1⟩ ≤ 0.85 ∧
      riskLevel (computeRiskScore ⟨false, 2, 5, 0, 99999999, 30, 10, 1⟩) ≠
        RiskLevel.CRITICAL :=
  unlabeled_score_le_085 ⟨false, 2, 5, 0, 99999999, 30, 10, 1⟩ rfl

/-! ## Stable descending sort (Python `list.sort(key=..., reverse=True)`) -/

/-- Insert `x` into a descending-sorted list, before the first element whose
key is at most `key x` — so equal keys keep the earlier element first. -/
def insertDescBy {α : Type} (key : α → ℚ) (x : α) : List α → List α
  | [] => [x]
  | y :: ys => if key x < key y then y :: insertDescBy key x ys else x :: y :: ys

/-- Stable sort by `key`, descending (equal keys keep input order). -/
def sortDescBy {α : Type} (key : α → ℚ) : List α → List α
  | [] => []
  | x :: xs => insertDescBy key x (sortDescBy key xs)

theorem beq_neg {α : Type} [DecidableEq α] {a b : α} (h : a ≠ b) : ¬(a == b) = true := by
  simp [h]

theorem insertDescBy_perm {α : Type} (key : α → ℚ) (x : α) (s : List α) :
    List.Perm (insertDescBy key x s) (x :: s) := by
  induction s with
  | nil => rfl
  | cons y ys ih =>
    rw [insertDescBy]
    split
    · exact ((ih.cons y).trans (List.Perm.swap x y ys))
    · rfl

theorem sortDescBy_perm {α : Type} (key : α → ℚ) (l : List α) :
    List.Perm (sortDescBy key l) l := by
  induction l with
  | nil => rfl
  | cons x xs ih => exact (insertDescBy_perm key x (sortDescBy key xs)).trans (ih.cons x)

theorem mem_sortDescBy {α : Type} {key : α → ℚ} {l : List α} {a : α} :
    a ∈ sortDescBy key l ↔ a ∈ l :=
  (sortDescBy_perm key l).mem_iff

theorem insertDescBy_pairwise {α : Type} {key : α → ℚ} {x : α} {s : List α}
    (hs : s.Pairwise (fun a b => key b ≤ key a)) :
    (insertDescBy key x s).Pairwise (fun a b => key b ≤ key a) := by
  induction s with
  | nil => simp [insertDescBy]
  | cons y ys ih =>
    rw [List.pairwise_cons] at hs
    rw [insertDescBy]
    split
    · rename_i hlt
      refine List.pairwise_cons.mpr ⟨?_, ih hs.2⟩
      intro z hz
      rcases List.mem_cons.mp ((insertDescBy_perm key x ys).mem_iff.mp hz) with hz | hz
      · exact hz ▸ le_of_lt hlt
      · exact hs.1 z hz
    · rename_i hge
      refine List.pairwise_cons.mpr ⟨?_, List.pairwise_cons.mpr hs⟩
      intro z hz
      rcases List.mem_cons.mp hz with hz | hz
      · exact hz ▸ not_lt.mp hge
      · exact le_trans (hs.1 z hz) (not_lt.mp hge)

theorem sortDescBy_pairwise {α : Type} (key : α → ℚ) (l : List α) :
    (sortDescBy key l).Pairwise (fun a b => key b ≤ key a) := by
  induction l with
  | nil => exact List.Pairwise.nil
  | cons x xs ih => exact insertDescBy_pairwise ih

theorem insertDescBy_front {α : Type} {key : α → ℚ} {x : α} {s : List α}
    (h : ∀ y ∈ s, ¬ key x < key y) : insertDescBy key x s = x :: s := by
  cases s with
  | nil => rfl
  | cons y ys => rw [insertDescBy, if_neg (h y (by simp))]

theorem insertDescBy_erase_self {α : Type} [DecidableEq α] {key : α → ℚ} {x : α}
    {s : List α} (h : x ∉ s) : (insertDescBy key x s).erase x = s := by
  induction s with
  | nil => exact List.erase_cons_head x []
  | cons y ys ih =>
    rw [insertDescBy]
    split
    · have hxy : x ≠ y := fun he => h (he ▸ List.mem_cons_self x ys)
      rw [List.erase_cons_tail (beq_neg (Ne.symm hxy)),
        ih (fun hm => h (List.mem_cons_of_mem y hm))]
    · exact List.erase_cons_head x (y :: ys)

theorem insertDescBy_erase_ne {α : Type} [DecidableEq α] {key : α → ℚ} {x a : α}
    {s : List α} (hax : a ≠ x) (hs : s.Pairwise (fun u v => key v ≤ key u)) :
    (insertDescBy key x s).erase a = insertDescBy key x (s.erase a) := by
  induction s with
  | nil =>
    show [x].erase a = insertDescBy key x ([].erase a)
    rw [List.erase_nil, List.erase_cons_tail (beq_neg (Ne.symm hax)), List.erase_nil]
    rfl
  | cons y ys ih =>
    rw [List.pairwise_cons] at hs
    rw [insertDescBy]
    split
    · rename_i hlt
      by_cases hay : a = y
      · subst hay
        rw [List.erase_cons_head a (insertDescBy key x ys), List.erase_cons_head a ys]
      · rw [List.erase_cons_tail (beq_neg (Ne.symm hay)), ih hs.2,
          List.erase_cons_tail (beq_neg (Ne.symm hay)), insertDescBy, if_pos hlt]
    · rename_i hge
      by_cases hay : a = y
      · subst hay
        rw [List.erase_cons_tail (beq_neg (Ne.symm hax)), List.erase_cons_head a ys]
        exact (insertDescBy_front (fun z hz =>
          fun hlt => hge (lt_of_lt_of_le hlt (hs.1 z hz)))).symm
      · rw [List.erase_cons_tail (beq_neg (Ne.symm hax)),
          List.erase_cons_tail (beq_neg (Ne.symm hay)), insertDescBy, if_neg hge]

theorem sortDescBy_erase {α : Type} [DecidableEq α] (key : α → ℚ) {l : List α}
    (a : α) (hnd : l.Nodup) :
    sortDescBy key (l.erase a) = (sortDescBy key l).erase a := by
  induction l with
  | nil => rfl
  | cons x xs ih =>
    rw [List.nodup_cons] at hnd
    by_cases hax : a = x
    · subst hax
      rw [List.erase_cons_head a xs, sortDescBy,
        insertDescBy_erase_self (fun hm => hnd.1 (mem_sortDescBy.mp hm))]
    · rw [List.erase_cons_tail (beq_neg (Ne.symm hax)), sortDescBy, sortDescBy,
        ih hnd.2, insertDescBy_erase_ne hax (sortDescBy_pairwise key xs)]

theorem take_erase_of_not_mem_take {α : Type} [DecidableEq α] {a : α} :
    ∀ (l : List α) (n : ℕ), a ∉ l.take n → (l.erase a).take n = l.take n := by
  intro l
  induction l with
  | nil => intro n _; rfl
  | cons x xs ih =>
    intro n hn
    cases n with
    | zero => rfl
    | succ m =>
      rw [List.take_succ_cons] at hn
      have hax : a ≠ x := fun he => hn (he ▸ List.mem_cons_self x (xs.take m))
      rw [List.erase_cons_tail (beq_neg (Ne.symm hax)), List.take_succ_cons,
        List.take_succ_cons, ih m (fun hm => hn (List.mem_cons_of_mem x hm))]

/-! ## Risk leaderboard (`risk.py`, `get_leaderboard`) -/

/-- One row of the leaderboard result (the fields relevant to ranking). -/
structure LeaderboardEntry where
  gstin : String
  riskScore : ℚ
deriving DecidableEq, Repr

/-- `get_leaderboard`: score every known entity, stable-sort by score
descending, return the first `topN`. -/
def getLeaderboard (allGstins : List String) (score : String → ℚ) (topN : ℕ) :
    List LeaderboardEntry :=
  if allGstins.isEmpty then []
  else
    (sortDescBy (fun e : LeaderboardEntry => e.riskScore)
      (allGstins.map (fun g => ⟨g, score g⟩))).take topN

theorem insertDescBy_pairwise_of {α : Type} {key : α → ℚ} {Q : α → α → Prop} {x : α} :
    ∀ {s : List α}, s.Pairwise Q → (∀ z ∈ s, Q x z) →
      (∀ z ∈ s, key x < key z → Q z x) →
      (insertDescBy key x s).Pairwise Q := by
  intro s
  induction s with
  | nil =>
    intro _ _ _
    exact List.pairwise_cons.mpr
      ⟨fun z hz => absurd hz (List.not_mem_nil z), List.Pairwise.nil⟩
  | cons y ys ih =>
    intro hs hx hvac
    rw [List.pairwise_cons] at hs
    rw [insertDescBy]
    split
    · rename_i hlt
      refine List.pairwise_cons.mpr ⟨?_,
        ih hs.2 (fun z hz => hx z (List.mem_cons_of_mem y hz))
          (fun z hz h => hvac z (List.mem_cons_of_mem y hz) h)⟩
      intro z hz
      rcases List.mem_cons.mp ((insertDescBy_perm key x ys).mem_iff.mp hz) with hz | hz
      · exact hz ▸ hvac y (List.mem_cons_self y ys) hlt
      · exact hs.1 z hz
    · refine List.pairwise_cons.mpr ⟨?_, List.pairwise_cons.mpr hs⟩
      intro z hz
      rcases List.mem_cons.mp hz with hz | hz
      · exact hz ▸ hx y (List.mem_cons_self y ys)
      · exact hx z (List.mem_cons_of_mem y hz)

/-- Stability of the sort: with the input order given as a pairwise relation
`lt`, equal keys in the output stay in input order. -/
theorem sortDescBy_pairwise_of {α : Type} (key : α → ℚ) {lt : α → α → Prop} :
    ∀ l : List α, l.Pairwise lt →
      (sortDescBy key l).Pairwise (fun a b => key a = key b → lt a b) := by
  intro l
  induction l with
  | nil => intro _; exact List.Pairwise.nil
  | cons x xs ih =>
    intro hl
    rw [List.pairwise_cons] at hl
    rw [sortDescBy]
    refine insertDescBy_pairwise_of (ih hl.2) ?_ ?_
    · intro z hz _
      exact hl.1 z (mem_sortDescBy.mp hz)
    · intro z hz hlt heq
      exact absurd heq (ne_of_gt hlt)

theorem nodup_pairwise_indexOf {α : Type} [DecidableEq α] {l : List α} (h : l.Nodup) :
    l.Pairwise (fun a b => l.indexOf a < l.indexOf b) := by
  rw [List.pairwise_iff_getElem]
  intro i j hi hj hij
  rw [List.indexOf_getElem h i hi, List.indexOf_getElem h j hj]
  exact hij

/-- C7: for every snapshot and every N, the leaderboard is sorted by risk
score descending with ties broken by input order (stable sort), returns
`min N (number of entities)` rows drawn from the scored input, every
returned entry scores at least as high as every entity left out, and
removing an entity that is not in the returned top N leaves the returned
list unchanged. -/
theorem getLeaderboard_spec (gstins : List String) (score : String → ℚ) (n : ℕ)
    (hnd : gstins.Nodup) :
    (getLeaderboard gstins score n).Pairwise (fun a b => b.riskScore ≤ a.riskScore)
    ∧ (getLeaderboard gstins score n).Pairwise (fun a b =>
        a.riskScore = b.riskScore → gstins.indexOf a.gstin < gstins.indexOf b.gstin)
    ∧ (getLeaderboard gstins score n).length = min n gstins.length
    ∧ (∀ e ∈ getLeaderboard gstins score n,
        e.gstin ∈ gstins ∧ e.riskScore = score e.gstin)
    ∧ (∀ e ∈ getLeaderboard gstins score n, ∀ w ∈ gstins,
        (∀ e' ∈ getLeaderboard gstins score n, e'.gstin ≠ w) → score w ≤ e.riskScore)
    ∧ (∀ g ∈ gstins, (∀ e ∈ getLeaderboard gstins score n, e.gstin ≠ g) →
        getLeaderboard (gstins.erase g) score n = getLeaderboard gstins score n) := by
  by_cases hnil : gstins = []
  · subst hnil
    refine ⟨?_, ?_, ?_, ?_, ?_, ?_⟩ <;> simp [getLeaderboard]
  · have hfinj : Function.Injective
        (fun g : String => (⟨g, score g⟩ : LeaderboardEntry)) :=
      fun a b h => congrArg LeaderboardEntry.gstin h
    have hempty : gstins.isEmpty = false := by
      cases gstins with
      | nil => exact absurd rfl hnil
      | cons x xs => rfl
    have hlb : getLeaderboard gstins score n =
        (sortDescBy (fun e : LeaderboardEntry => e.riskScore)
          (gstins.map (fun g : String => (⟨g, score g⟩ : LeaderboardEntry)))).take n := by
      rw [getLeaderboard, hempty]
      rfl
    refine ⟨?_, ?_, ?_, ?_, ?_, ?_⟩
    · rw [hlb]
      exact List.Pairwise.sublist (List.take_sublist n _)
        (sortDescBy_pairwise (fun e : LeaderboardEntry => e.riskScore) _)
    · rw [hlb]
      refine List.Pairwise.sublist (List.take_sublist n _) ?_
      refine sortDescBy_pairwise_of (fun e : LeaderboardEntry => e.riskScore)
        (gstins.map (fun g : String => (⟨g, score g⟩ : LeaderboardEntry))) ?_
      exact List.pairwise_map.mpr (nodup_pairwise_indexOf hnd)
    · rw [hlb, List.length_take,
        List.Perm.length_eq (sortDescBy_perm (fun e : LeaderboardEntry => e.riskScore) _),
        List.length_map]
    · intro e he
      rw [hlb] at he
      have hes := List.Sublist.mem he (List.take_sublist n _)
      rcases List.mem_map.mp (mem_sortDescBy.mp hes) with ⟨g', hg', he'⟩
      rw [← he']
      exact ⟨hg', rfl⟩
    · intro e he w hw hwout
      rw [hlb] at he
      have hfw_s : (⟨w, score w⟩ : LeaderboardEntry) ∈
          sortDescBy (fun e : LeaderboardEntry => e.riskScore)
            (gstins.map (fun g : String => (⟨g, score g⟩ : LeaderboardEntry))) :=
        mem_sortDescBy.mpr (List.mem_map_of_mem _ hw)
      have hfw_nt : (⟨w, score w⟩ : LeaderboardEntry) ∉
          (sortDescBy (fun e : LeaderboardEntry => e.riskScore)
            (gstins.map (fun g : String => (⟨g, score g⟩ : LeaderboardEntry)))).take n :=
        fun hmem => hwout ⟨w, score w⟩ (by rw [hlb]; exact hmem) rfl
      have hfw_d : (⟨w, score w⟩ : LeaderboardEntry) ∈
          (sortDescBy (fun e : LeaderboardEntry => e.riskScore)
            (gstins.map (fun g : String => (⟨g, score g⟩ : LeaderboardEntry)))).drop n := by
        have hsplit := List.take_append_drop n
          (sortDescBy (fun e : LeaderboardEntry => e.riskScore)
            (gstins.map (fun g : String => (⟨g, score g⟩ : LeaderboardEntry))))
        rcases List.mem_append.mp (hsplit ▸ hfw_s) with h | h
        · exact absurd h hfw_nt
        · exact h
      have hpw : ((sortDescBy (fun e : LeaderboardEntry => e.riskScore)
          (gstins.map (fun g : String => (⟨g, score g⟩ : LeaderboardEntry)))).take n ++
          (sortDescBy (fun e : LeaderboardEntry => e.riskScore)
            (gstins.map (fun g : String => (⟨g, score g⟩ : LeaderboardEntry)))).drop
              n).Pairwise
          (fun a b => b.riskScore ≤ a.riskScore) := by
        rw [List.take_append_drop]
        exact sortDescBy_pairwise (fun e : LeaderboardEntry => e.riskScore) _
      exact (List.pairwise_append.mp hpw).2.2 e he ⟨w, score w⟩ hfw_d
    · intro g hg hng
      have hgnot : (⟨g, score g⟩ : LeaderboardEntry) ∉
          (sortDescBy (fun e : LeaderboardEntry => e.riskScore)
            (gstins.map (fun g : String => (⟨g, score g⟩ : LeaderboardEntry)))).take n :=
        fun hmem => hng ⟨g, score g⟩ (by rw [hlb]; exact hmem) rfl
      by_cases herase : (gstins.erase g).isEmpty = true
      · have hemp : gstins.erase g = [] := by
          cases h : gstins.erase g with
          | nil => rfl
          | cons x xs => rw [h] at herase; exact absurd herase (by simp)
        have hsingle : gstins = [g] :=
          List.perm_singleton.mp (hemp ▸ List.perm_cons_erase hg)
        subst hsingle
        cases n with
        | zero => simp [getLeaderboard, List.erase_cons_head]
        | succ m =>
          exact absurd rfl (hng ⟨g, score g⟩ (by simp [hlb, sortDescBy, insertDescBy]))
      · have herase2 : (gstins.erase g).isEmpty = false := by
          revert herase
          cases (gstins.erase g).isEmpty <;> simp
        calc getLeaderboard (gstins.erase g) score n
            = (sortDescBy (fun e : LeaderboardEntry => e.riskScore)
                ((gstins.erase g).map
                  (fun g : String => (⟨g, score g⟩ : LeaderboardEntry)))).take n := by
              rw [getLeaderboard, herase2]
              rfl
          _ = (sortDescBy (fun e : LeaderboardEntry => e.riskScore)
                ((gstins.map (fun g : String => (⟨g, score g⟩ : LeaderboardEntry))).erase
                  ⟨g, score g⟩)).take n := by
              rw [List.map_erase hfinj]
          _ = ((sortDescBy (fun e : LeaderboardEntry => e.riskScore)
                (gstins.map (fun g : String => (⟨g, score g⟩ : LeaderboardEntry)))).erase
                  ⟨g, score g⟩).take n := by
              rw [sortDescBy_erase (fun e : LeaderboardEntry => e.riskScore) _
                (hnd.map hfinj)]
          _ = (sortDescBy (fun e : LeaderboardEntry => e.riskScore)
                (gstins.map (fun g : String => (⟨g, score g⟩ : LeaderboardEntry)))).take n :=
              take_erase_of_not_mem_take _ n hgnot
          _ = getLeaderboard gstins score n := hlb.symm

/-- Fixed scoring function used to witness `getLeaderboard_spec`;
entities A and C tie at 0.5 to exercise the stability clause. -/
def wScore : String → ℚ :=
  fun x => if x = "B" then 0.9 else if x = "D" then 0.2 else 0.5

/-- Witness for `getLeaderboard_spec` on a four-entity snapshot with a tie
inside the returned top 3. -/
theorem getLeaderboard_spec_witness :
    (["A", "B", "C", "D"] : List String).Nodup
    ∧ ((getLeaderboard ["A", "B", "C", "D"] wScore 3).Pairwise
        (fun a b => b.riskScore ≤ a.riskScore)
    ∧ (getLeaderboard ["A", "B", "C", "D"] wScore 3).Pairwise (fun a b =>
        a.riskScore = b.riskScore →
          (["A", "B", "C", "D"] : List String).indexOf a.gstin <
            (["A", "B", "C", "D"] : List String).indexOf b.gstin)
    ∧ (getLeaderboard ["A", "B", "C", "D"] wScore 3).length =
        min 3 (["A", "B", "C", "D"] : List String).length
    ∧ (∀ e ∈ getLeaderboard ["A", "B", "C", "D"] wScore 3,
        e.gstin ∈ (["A", "B", "C", "D"] : List String) ∧ e.riskScore = wScore e.gstin)
    ∧ (∀ e ∈ getLeaderboard ["A", "B", "C", "D"] wScore 3,
        ∀ w ∈ (["A", "B", "C", "D"] : List String),
        (∀ e2 ∈ getLeaderboard ["A", "B", "C", "D"] wScore 3, e2.gstin ≠ w) →
          wScore w ≤ e.riskScore)
    ∧ (∀ g ∈ (["A", "B", "C", "D"] : List String),
        (∀ e ∈ getLeaderboard ["A", "B", "C", "D"] wScore 3, e.gstin ≠ g) →
          getLeaderboard ((["A", "B", "C", "D"] : List String).erase g) wScore 3 =
            getLeaderboard ["A", "B", "C", "D"] wScore 3)) :=
  ⟨by decide, getLeaderboard_spec ["A", "B", "C", "D"] wScore 3 (by decide)⟩

/-! ## Reconciliation engine (`reconciliation.py`) -/

/-- One GSTR-1 (outward channel) row, after ingestion-time numeric coercion. -/
structure G1Row where
  invoiceId : String
  supplier : String
  receiver : String
  totalValue : ℚ
  taxAmount : ℚ
deriving DecidableEq, Repr

/-- One GSTR-2B (inward channel) row, after ingestion-time numeric coercion. -/
structure G2bRow where
  invoiceId : String
  supplier : String
  receiver : String
  totalValue : ℚ
  itcAvailable : ℚ
deriving DecidableEq, Repr

/-- One GSTR-3B (period summary) row. -/
structure G3bRow where
  gstin : String
  period : String
  totalSalesDeclared : ℚ
  totalItcClaimed : ℚ
  taxPaidCash : ℚ
deriving DecidableEq, Repr

/-- One row of the outer join of GSTR-1 and GSTR-2B on `invoice_id`
(the `_merge` indicator column becomes the constructor). -/
inductive JoinedRow
  | both (a : G1Row) (b : G2bRow)
  | leftOnly (a : G1Row)
  | rightOnly (b : G2bRow)
deriving DecidableEq, Repr

inductive ReconStatus
  | FULLY_RECONCILED
  | MISSING_IN_GSTR1
  | MISSING_IN_GSTR2B
  | VALUE_MISMATCH
  | TAX_MISMATCH
deriving DecidableEq, Repr

/-- `_classify_invoice`: one-sided rows get a missing status; rows present in
both channels are classified value-first, then tax, with tolerance 1.0. -/
def classifyInvoice : JoinedRow → ReconStatus
  | .rightOnly _ => .MISSING_IN_GSTR1
  | .leftOnly _ => .MISSING_IN_GSTR2B
  | .both a b =>
      if |a.totalValue - b.totalValue| > 1 then .VALUE_MISMATCH
      else if |a.taxAmount - b.itcAvailable| > 1 then .TAX_MISMATCH
      else .FULLY_RECONCILED

/-- Full outer join of the two channels on `invoice_id` (each channel is
already deduplicated on `invoice_id` by ingestion, so `find?` is the match). -/
def outerJoin (g1 : List G1Row) (g2b : List G2bRow) : List JoinedRow :=
  (g1.map (fun a =>
      match g2b.find? (fun b => b.invoiceId == a.invoiceId) with
      | some b => JoinedRow.both a b
      | none => JoinedRow.leftOnly a))
  ++ ((g2b.filter (fun b => !(g1.any (fun a => a.invoiceId == b.invoiceId)))).map .rightOnly)

/-- `full_chain_reconciliation`, step 1: the merge with its empty-input
special cases (`left_only` / `right_only` indicator rows). -/
def fullChainReconciliation (g1 : List G1Row) (g2b : List G2bRow) : List JoinedRow :=
  if g1.isEmpty && g2b.isEmpty then []
  else if !g1.isEmpty && !g2b.isEmpty then outerJoin g1 g2b
  else if !g1.isEmpty then g1.map .leftOnly
  else g2b.map .rightOnly

/-- Receiver's `total_itc_claimed` aggregated over periods
(the GSTR-3B `groupby("gstin").sum()`). -/
def sumItcClaimed (g3b : List G3bRow) (gstin : String) : ℚ :=
  ((g3b.filter (fun s => s.gstin == gstin)).map (fun s => s.totalItcClaimed)).sum

/-- `full_chain_reconciliation`, step 6: the `itc_overclaimed` flag of one
joined row. Rows with no inward side have no `itc_available`/receiver from
GSTR-2B and stay `False`; rows whose receiver has no GSTR-3B filing get a
null `total_itc_claimed`, and the pandas comparison yields `False`. -/
def itcOverclaimed (g3b : List G3bRow) : JoinedRow → Bool
  | .leftOnly _ => false
  | .both _ b =>
      if (g3b.filter (fun s => s.gstin == b.receiver)).isEmpty then false
      else decide (sumItcClaimed g3b b.receiver > b.itcAvailable * 1.05)
  | .rightOnly b =>
      if (g3b.filter (fun s => s.gstin == b.receiver)).isEmpty then false
      else decide (sumItcClaimed g3b b.receiver > b.itcAvailable * 1.05)

/-- The dict returned by `get_summary`. -/
structure ReconSummary where
  totalInvoices : ℕ
  fullyReconciled : ℕ
  missingInGstr1 : ℕ
  missingInGstr2b : ℕ
  valueMismatch : ℕ
  taxMismatch : ℕ
  itcOverclaimedCount : ℕ
  reconciliationRate : ℚ
deriving DecidableEq, Repr

/-- `get_summary`: per-status counts plus the reconciliation rate
`round(fully / total * 100, 1)`; all zeroes on an empty reconciliation. -/
def getSummary (g1 : List G1Row) (g2b : List G2bRow) (g3b : List G3bRow) : ReconSummary :=
  let rows := fullChainReconciliation g1 g2b
  if rows.isEmpty then ⟨0, 0, 0, 0, 0, 0, 0, 0⟩
  else
    let statuses := rows.map classifyInvoice
    let total := rows.length
    let fully := statuses.count .FULLY_RECONCILED
    { totalInvoices := total
      fullyReconciled := fully
      missingInGstr1 := statuses.count .MISSING_IN_GSTR1
      missingInGstr2b := statuses.count .MISSING_IN_GSTR2B
      valueMismatch := statuses.count .VALUE_MISMATCH
      taxMismatch := statuses.count .TAX_MISMATCH
      itcOverclaimedCount := (rows.filter (itcOverclaimed g3b)).length
      reconciliationRate := pyRound 1 ((fully : ℚ) / (total : ℚ) * 100) }

/-- C1: the tie-break order for invoices present in both channels
(value mismatch first, then tax mismatch, else fully reconciled), and: on a
dataset where every invoice appears in both channels with value and tax
within tolerance, every record is FULLY_RECONCILED and the rate is 100. -/
theorem reconciliation_tiebreak_and_rate
    (a : G1Row) (b : G2bRow)
    (g1 : List G1Row) (g2b : List G2bRow) (g3b : List G3bRow)
    (h1 : g1 ≠ [])
    (hids2 : (g2b.map (fun r => r.invoiceId)).Nodup)
    (hmatch : ∀ x ∈ g1, ∃ y ∈ g2b, y.invoiceId = x.invoiceId ∧
        |x.totalValue - y.totalValue| ≤ 1 ∧ |x.taxAmount - y.itcAvailable| ≤ 1)
    (hback : ∀ y ∈ g2b, ∃ x ∈ g1, x.invoiceId = y.invoiceId) :
    (classifyInvoice (.both a b) =
      if |a.totalValue - b.totalValue| > 1 then .VALUE_MISMATCH
      else if |a.taxAmount - b.itcAvailable| > 1 then .TAX_MISMATCH
      else .FULLY_RECONCILED)
    ∧ (∀ r ∈ fullChainReconciliation g1 g2b, classifyInvoice r = .FULLY_RECONCILED)
    ∧ (getSummary g1 g2b g3b).reconciliationRate = 100 := by
  have h2 : g2b ≠ [] := by
    cases g1 with
    | nil => exact absurd rfl h1
    | cons x xs =>
      obtain ⟨y, hy, -⟩ := hmatch x (List.mem_cons_self x xs)
      exact List.ne_nil_of_mem hy
  have e1 : g1.isEmpty = false := by
    cases g1 with
    | nil => exact absurd rfl h1
    | cons x xs => rfl
  have e2 : g2b.isEmpty = false := by
    cases g2b with
    | nil => exact absurd rfl h2
    | cons x xs => rfl
  have hfc : fullChainReconciliation g1 g2b = outerJoin g1 g2b := by
    rw [fullChainReconciliation, e1, e2]
    rfl
  have hall : ∀ r ∈ fullChainReconciliation g1 g2b,
      classifyInvoice r = .FULLY_RECONCILED := by
    rw [hfc]
    intro r hr
    rcases List.mem_append.mp hr with hr | hr
    · rcases List.mem_map.mp hr with ⟨x, hx, he⟩
      obtain ⟨y, hy, hyid, hdv, hdt⟩ := hmatch x hx
      have hsome : (g2b.find? (fun b => b.invoiceId == x.invoiceId)).isSome = true :=
        List.find?_isSome.mpr ⟨y, hy, by simp [hyid]⟩
      obtain ⟨y', hy'⟩ := Option.isSome_iff_exists.mp hsome
      have hy'mem : y' ∈ g2b := List.mem_of_find?_eq_some hy'
      have hy'id : y'.invoiceId = x.invoiceId := by
        have := List.find?_some hy'
        simpa using this
      have hyy : y' = y :=
        List.inj_on_of_nodup_map hids2 hy'mem hy (by rw [hy'id, hyid])
      subst hyy
      rw [← he, hy']
      rw [classifyInvoice, if_neg (not_lt.mpr hdv), if_neg (not_lt.mpr hdt)]
    · rcases List.mem_map.mp hr with ⟨y, hy, he⟩
      rw [List.mem_filter] at hy
      obtain ⟨x, hx, hxid⟩ := hback y hy.1
      have : g1.any (fun a => a.invoiceId == y.invoiceId) = true :=
        List.any_eq_true.mpr ⟨x, hx, by simp [hxid]⟩
      rw [this] at hy
      exact absurd hy.2 (by simp)
  refine ⟨rfl, hall, ?_⟩
  have hne : fullChainReconciliation g1 g2b ≠ [] := by
    rw [hfc]
    intro hnil
    rcases List.append_eq_nil.mp hnil with ⟨hm, -⟩
    exact h1 (List.map_eq_nil_iff.mp hm)
  have hemp : (fullChainReconciliation g1 g2b).isEmpty = false := by
    cases h : fullChainReconciliation g1 g2b with
    | nil => exact absurd h hne
    | cons r rs => rfl
  have hlen : (fullChainReconciliation g1 g2b).length ≠ 0 := by
    intro h
    exact hne (List.length_eq_zero.mp h)
  have hcount : ((fullChainReconciliation g1 g2b).map classifyInvoice).count
      ReconStatus.FULLY_RECONCILED = (fullChainReconciliation g1 g2b).length := by
    rw [← List.length_map (fullChainReconciliation g1 g2b) classifyInvoice]
    exact List.count_eq_length.mpr (fun s hs => by
      rcases List.mem_map.mp hs with ⟨r, hr, he⟩
      exact (he ▸ hall r hr).symm)
  rw [getSummary]
  simp only [hemp, Bool.false_eq_true, if_false]
  rw [hcount]
  have hq : ((fullChainReconciliation g1 g2b).length : ℚ) ≠ 0 := Nat.cast_ne_zero.mpr hlen
  rw [div_self hq, one_mul]
  decide

/-- Witness for `reconciliation_tiebreak_and_rate` on a one-invoice dataset
matching across both channels. -/
theorem reconciliation_tiebreak_and_rate_witness :
    ((classifyInvoice (.both ⟨"I1", "S1", "R1", 1000, 180⟩ ⟨"I1", "S1", "R1", 1000, 180⟩) =
      if |(1000 : ℚ) - 1000| > 1 then .VALUE_MISMATCH
      else if |(180 : ℚ) - 180| > 1 then .TAX_MISMATCH
      else .FULLY_RECONCILED)
    ∧ (∀ r ∈ fullChainReconciliation [⟨"I1", "S1", "R1", 1000, 180⟩]
          [⟨"I1", "S1", "R1", 1000, 180⟩], classifyInvoice r = .FULLY_RECONCILED)
    ∧ (getSummary [⟨"I1", "S1", "R1", 1000, 180⟩] [⟨"I1", "S1", "R1", 1000, 180⟩]
        []).reconciliationRate = 100) :=
  reconciliation_tiebreak_and_rate ⟨"I1", "S1", "R1", 1000, 180⟩
    ⟨"I1", "S1", "R1", 1000, 180⟩ [⟨"I1", "S1", "R1", 1000, 180⟩]
    [⟨"I1", "S1", "R1", 1000, 180⟩] [] (by decide) (by decide) (by decide) (by decide)

/-- C9: reconciliation degrades gracefully on empty inputs — both channels
empty yields an empty record list and an all-zero summary; a single empty
channel yields every record of the other channel with that channel's
one-sided-missing status. -/
theorem reconciliation_empty_graceful (g1 : List G1Row) (g2b : List G2bRow)
    (g3b : List G3bRow) (h1 : g1 ≠ []) (h2 : g2b ≠ []) :
    fullChainReconciliation [] [] = []
    ∧ getSummary [] [] g3b = ⟨0, 0, 0, 0, 0, 0, 0, 0⟩
    ∧ fullChainReconciliation g1 [] = g1.map .leftOnly
    ∧ (∀ r ∈ fullChainReconciliation g1 [], classifyInvoice r = .MISSING_IN_GSTR2B)
    ∧ fullChainReconciliation [] g2b = g2b.map .rightOnly
    ∧ (∀ r ∈ fullChainReconciliation [] g2b, classifyInvoice r = .MISSING_IN_GSTR1) := by
  have e1 : g1.isEmpty = false := by
    cases g1 with
    | nil => exact absurd rfl h1
    | cons x xs => rfl
  have e2 : g2b.isEmpty = false := by
    cases g2b with
    | nil => exact absurd rfl h2
    | cons x xs => rfl
  have hleft : fullChainReconciliation g1 [] = g1.map .leftOnly := by
    rw [fullChainReconciliation, e1]
    rfl
  have hright : fullChainReconciliation [] g2b = g2b.map .rightOnly := by
    rw [fullChainReconciliation, e2]
    rfl
  refine ⟨rfl, rfl, hleft, ?_, hright, ?_⟩
  · intro r hr
    rw [hleft] at hr
    rcases List.mem_map.mp hr with ⟨x, -, he⟩
    rw [← he]
    rfl
  · intro r hr
    rw [hright] at hr
    rcases List.mem_map.mp hr with ⟨y, -, he⟩
    rw [← he]
    rfl

/-- Witness for `reconciliation_empty_graceful` at concrete one-row channels. -/
theorem reconciliation_empty_graceful_witness :
    (fullChainReconciliation [] [] = []
    ∧ getSummary [] [] [] = ⟨0, 0, 0, 0, 0, 0, 0, 0⟩
    ∧ fullChainReconciliation [⟨"I1", "S1", "R1", 1000, 180⟩] [] =
        [⟨"I1", "S1", "R1", 1000, 180⟩].map .leftOnly
    ∧ (∀ r ∈ fullChainReconciliation [⟨"I1", "S1", "R1", 1000, 180⟩] [],
        classifyInvoice r = .MISSING_IN_GSTR2B)
    ∧ fullChainReconciliation [] [⟨"I2", "S2", "R2", 500, 90⟩] =
        [⟨"I2", "S2", "R2", 500, 90⟩].map .rightOnly
    ∧ (∀ r ∈ fullChainReconciliation [] [⟨"I2", "S2", "R2", 500, 90⟩],
        classifyInvoice r = .MISSING_IN_GSTR1)) :=
  reconciliation_empty_graceful [⟨"I1", "S1", "R1", 1000, 180⟩]
    [⟨"I2", "S2", "R2", 500, 90⟩] [] (by decide) (by decide)

/-- The GSTR-2B side of a joined row, when present (the columns
`receiver_gstin_g2b` / `itc_available` are non-null exactly on these rows). -/
def inwardSide : JoinedRow → Option G2bRow
  | .both _ b => some b
  | .rightOnly b => some b
  | .leftOnly _ => none

/-- Stated from the specification sentence for comparison with the code:
the receiver's total claimed credit (GSTR-3B, summed across periods) exceeds
105% of the credit available to that entity per the inward channel, i.e. the
sum of `itc_available` over all GSTR-2B rows of that receiver. -/
def specCreditOverclaim (g2b : List G2bRow) (g3b : List G3bRow)
    (receiver : String) : Bool :=
  decide (sumItcClaimed g3b receiver >
    ((g2b.filter (fun b => b.receiver == receiver)).map
      (fun b => b.itcAvailable)).sum * 1.05)

/-- C5 counterexample: with two inward invoices of credit 100 each for
receiver R and a total claim of 150, the code flags each record
(150 > 1.05 · 100) although the entity-level comparison of the claim does
not (150 ≤ 1.05 · 200). -/
theorem itcOverclaim_counterexample :
    (JoinedRow.both ⟨"I1", "S", "R", 100, 18⟩ ⟨"I1", "S", "R", 100, 100⟩) ∈
      fullChainReconciliation
        [⟨"I1", "S", "R", 100, 18⟩, ⟨"I2", "S", "R", 100, 18⟩]
        [⟨"I1", "S", "R", 100, 100⟩, ⟨"I2", "S", "R", 100, 100⟩]
    ∧ itcOverclaimed [⟨"R", "2024-01", 1000, 150, 0⟩]
        (JoinedRow.both ⟨"I1", "S", "R", 100, 18⟩ ⟨"I1", "S", "R", 100, 100⟩) = true
    ∧ specCreditOverclaim
        [⟨"I1", "S", "R", 100, 100⟩, ⟨"I2", "S", "R", 100, 100⟩]
        [⟨"R", "2024-01", 1000, 150, 0⟩] "R" = false := by
  refine ⟨by decide, by decide, by decide⟩

/-- C5 amended: the flag is computed per record — it is true exactly when the
record has an inward side, its receiver has at least one GSTR-3B row, and the
receiver's GSTR-3B credit summed across periods exceeds 105% of that single
record's inward credit amount (`itc_available`); in particular it is false
for records whose receiver has no summary data. -/
theorem itcOverclaimed_amended (g3b : List G3bRow) (r : JoinedRow) :
    itcOverclaimed g3b r = true ↔
      ∃ b, inwardSide r = some b ∧
        (g3b.filter (fun s => s.gstin == b.receiver)) ≠ [] ∧
        sumItcClaimed g3b b.receiver > b.itcAvailable * 1.05 := by
  cases r with
  | leftOnly a => simp [itcOverclaimed, inwardSide]
  | both a b =>
    rw [itcOverclaimed]
    split
    · rename_i hemp
      simp only [inwardSide, Option.some.injEq, Bool.false_eq_true, false_iff]
      rintro ⟨b', hb', hne, -⟩
      subst hb'
      exact hne (List.isEmpty_iff.mp hemp)
    · rename_i hemp
      simp only [inwardSide, Option.some.injEq, decide_eq_true_eq]
      constructor
      · intro hgt
        exact ⟨b, rfl, fun h => hemp (by rw [h]; rfl), hgt⟩
      · rintro ⟨b', hb', -, hgt⟩
        subst hb'
        exact hgt
  | rightOnly b =>
    rw [itcOverclaimed]
    split
    · rename_i hemp
      simp only [inwardSide, Option.some.injEq, Bool.false_eq_true, false_iff]
      rintro ⟨b', hb', hne, -⟩
      subst hb'
      exact hne (List.isEmpty_iff.mp hemp)
    · rename_i hemp
      simp only [inwardSide, Option.some.injEq, decide_eq_true_eq]
      constructor
      · intro hgt
        exact ⟨b, rfl, fun h => hemp (by rw [h]; rfl), hgt⟩
      · rintro ⟨b', hb', -, hgt⟩
        subst hb'
        exact hgt

/-! ## Ingestion and graph building (`ingestion.py`, `ingest_gstr1_df`) -/

/-- A raw GSTR-1 row as uploaded: endpoint identifiers may be missing. -/
structure RawInvoice where
  invoiceId : String
  supplier : Option String
  receiver : Option String
  totalValue : ℚ
  taxAmount : ℚ
deriving DecidableEq, Repr

/-- One `INVOICE` relationship of the transaction graph (the edge merged by
`(supplier, receiver, invoice_id)` with its value and tax attributes). -/
structure GEdge where
  src : String
  dst : String
  invoiceId : String
  totalValue : ℚ
  taxAmount : ℚ
deriving DecidableEq, Repr

/-- `drop_duplicates(subset=["invoice_id"], keep="first")`: keep a row only
when its invoice id has not occurred earlier. -/
def dedupByInvoiceId (seen : List String) : List RawInvoice → List RawInvoice
  | [] => []
  | r :: rs =>
      if r.invoiceId ∈ seen then dedupByInvoiceId seen rs
      else r :: dedupByInvoiceId (r.invoiceId :: seen) rs

/-- Whitespace as stripped by `.str.strip()`. -/
def isSpaceChar (c : Char) : Bool := c = ' ' || c = '\t' || c = '\n' || c = '\r'

/-- `.str.strip()`: drop leading and trailing whitespace. -/
def stripStr (s : String) : String :=
  ⟨((s.data.dropWhile isSpaceChar).reverse.dropWhile isSpaceChar).reverse⟩

/-- GSTIN validation of `_validate_and_dedup`: stringify (a missing value
becomes the 3-character string of pandas' NaN), strip, require length 15. -/
def validGstin : Option String → Bool
  | none => false
  | some s => (stripStr s).length == 15

/-- A row survives validation when both endpoint identifiers are valid. -/
def validRow (r : RawInvoice) : Bool := validGstin r.supplier && validGstin r.receiver

/-- The edge written for a surviving row (identifiers already stripped). -/
def toEdge (r : RawInvoice) : GEdge :=
  ⟨stripStr (r.supplier.getD ""), stripStr (r.receiver.getD ""), r.invoiceId,
    r.totalValue, r.taxAmount⟩

/-- `ingest_gstr1_df`: dedup on `invoice_id` first, drop rows with invalid
GSTINs, then write one edge per surviving row. -/
def ingestGstr1Edges (rows : List RawInvoice) : List GEdge :=
  ((dedupByInvoiceId [] rows).filter validRow).map toEdge

/-- C6 counterexample: two invoices sharing the id INV1 between the same
valid pair produce a single edge (the second row is dropped at dedup), not
two distinct parallel edges. -/
theorem ingest_duplicate_invoice_counterexample :
    ingestGstr1Edges
        [⟨"INV1", some "27AAAAA0000A1Z5", some "29BBBBB0000B1Z5", 100, 10⟩,
         ⟨"INV1", some "27AAAAA0000A1Z5", some "29BBBBB0000B1Z5", 200, 20⟩] =
      [toEdge ⟨"INV1", some "27AAAAA0000A1Z5", some "29BBBBB0000B1Z5", 100, 10⟩]
    ∧ (ingestGstr1Edges
        [⟨"INV1", some "27AAAAA0000A1Z5", some "29BBBBB0000B1Z5", 100, 10⟩,
         ⟨"INV1", some "27AAAAA0000A1Z5", some "29BBBBB0000B1Z5", 200, 20⟩]).length = 1 := by
  refine ⟨by decide, by decide⟩

theorem dedupByInvoiceId_eq_self (rows : List RawInvoice) :
    ∀ seen : List String, (∀ r ∈ rows, r.invoiceId ∉ seen) →
      (rows.map (fun r => r.invoiceId)).Nodup → dedupByInvoiceId seen rows = rows := by
  induction rows with
  | nil => intro seen _ _; rfl
  | cons r rs ih =>
    intro seen hseen hnd
    rw [List.map_cons, List.nodup_cons] at hnd
    rw [dedupByInvoiceId, if_neg (hseen r (List.mem_cons_self r rs))]
    congr 1
    refine ih (r.invoiceId :: seen) ?_ hnd.2
    intro x hx hmem
    rcases List.mem_cons.mp hmem with h | h
    · exact hnd.1 (h ▸ List.mem_map_of_mem (fun r => r.invoiceId) hx)
    · exact hseen x (List.mem_cons_of_mem r hx) h

/-- C6 amended: graph building turns each valid invoice row into one edge,
keeping rows with **distinct** invoice ids between the same pair as parallel
edges, but a row whose invoice id duplicates an earlier row's id is dropped
at dedup (keep-first); no edge is created from a row whose endpoints are
missing or not 15 characters, and every edge comes from a surviving row. -/
theorem ingestGstr1Edges_amended (rows : List RawInvoice)
    (hids : (rows.map (fun r => r.invoiceId)).Nodup) :
    ingestGstr1Edges rows = (rows.filter validRow).map toEdge
    ∧ ∀ e ∈ ingestGstr1Edges rows, ∃ r ∈ rows, validRow r = true ∧ e = toEdge r := by
  have hded : dedupByInvoiceId [] rows = rows :=
    dedupByInvoiceId_eq_self rows [] (fun r _ h => (List.not_mem_nil _ h)) hids
  refine ⟨by rw [ingestGstr1Edges, hded], ?_⟩
  intro e he
  rw [ingestGstr1Edges, hded] at he
  rcases List.mem_map.mp he with ⟨r, hr, he⟩
  rw [List.mem_filter] at hr
  exact ⟨r, hr.1, hr.2, he.symm⟩

/-- Witness for `ingestGstr1Edges_amended`: two distinct-id invoices between
the same pair and a row with a missing receiver. -/
theorem ingestGstr1Edges_amended_witness :
    ((([⟨"INV1", some "27AAAAA0000A1Z5", some "29BBBBB0000B1Z5", 100, 10⟩,
        ⟨"INV2", some "27AAAAA0000A1Z5", some "29BBBBB0000B1Z5", 200, 20⟩,
        ⟨"INV3", some "27AAAAA0000A1Z5", none, 300, 30⟩] :
          List RawInvoice).map (fun r => r.invoiceId)).Nodup)
    ∧ (ingestGstr1Edges
        [⟨"INV1", some "27AAAAA0000A1Z5", some "29BBBBB0000B1Z5", 100, 10⟩,
         ⟨"INV2", some "27AAAAA0000A1Z5", some "29BBBBB0000B1Z5", 200, 20⟩,
         ⟨"INV3", some "27AAAAA0000A1Z5", none, 300, 30⟩] =
        (([⟨"INV1", some "27AAAAA0000A1Z5", some "29BBBBB0000B1Z5", 100, 10⟩,
           ⟨"INV2", some "27AAAAA0000A1Z5", some "29BBBBB0000B1Z5", 200, 20⟩,
           ⟨"INV3", some "27AAAAA0000A1Z5", none, 300, 30⟩] :
             List RawInvoice).filter validRow).map toEdge
      ∧ ∀ e ∈ ingestGstr1Edges
          [⟨"INV1", some "27AAAAA0000A1Z5", some "29BBBBB0000B1Z5", 100, 10⟩,
           ⟨"INV2", some "27AAAAA0000A1Z5", some "29BBBBB0000B1Z5", 200, 20⟩,
           ⟨"INV3", some "27AAAAA0000A1Z5", none, 300, 30⟩],
          ∃ r ∈ ([⟨"INV1", some "27AAAAA0000A1Z5", some "29BBBBB0000B1Z5", 100, 10⟩,
            ⟨"INV2", some "27AAAAA0000A1Z5", some "29BBBBB0000B1Z5", 200, 20⟩,
            ⟨"INV3", some "27AAAAA0000A1Z5", none, 300, 30⟩] : List RawInvoice),
            validRow r = true ∧ e = toEdge r) :=
  ⟨by decide,
    ingestGstr1Edges_amended
      [⟨"INV1", some "27AAAAA0000A1Z5", some "29BBBBB0000B1Z5", 100, 10⟩,
       ⟨"INV2", some "27AAAAA0000A1Z5", some "29BBBBB0000B1Z5", 200, 20⟩,
       ⟨"INV3", some "27AAAAA0000A1Z5", none, 300, 30⟩] (by decide)⟩

/-! ## Fake-invoice detection (`fraud.py`, `detect_fake_invoices`) -/

/-- The round-number filter `total_value % 100000 == 0 and total_value >
500000`: for an exact value, the modulo test holds iff the value is an
integer multiple of 100000. -/
def isSuspiciousValue (v : ℚ) : Bool :=
  (v.den == 1 && v.num % 100000 == 0) && decide (v > 500000)

/-- One flagged `(supplier, receiver)` group of the fake-invoice check. -/
structure FakeInvoiceResult where
  supplierGstin : String
  receiverGstin : String
  repeatedCount : ℕ
  repeatedAmount : ℚ
  totalValue : ℚ
deriving DecidableEq, Repr

/-- The suspicious subset: round-lakh invoices above 500000. -/
def fakeSuspicious (g1 : List G1Row) : List G1Row :=
  g1.filter (fun r => isSuspiciousValue r.totalValue)

/-- The `groupby(["supplier_gstin", "receiver_gstin"])` group of one pair. -/
def fakeGroup (g1 : List G1Row) (p : String × String) : List G1Row :=
  (fakeSuspicious g1).filter (fun r => r.supplier == p.1 && r.receiver == p.2)

/-- The aggregation row of one pair, kept iff `count >= 3` and
`nunique <= 2` (`repeated_amount` is the group's first value). -/
def mkFakeResult (g1 : List G1Row) (p : String × String) : Option FakeInvoiceResult :=
  if 3 ≤ (fakeGroup g1 p).length ∧
      ((fakeGroup g1 p).map (fun r => r.totalValue)).dedup.length ≤ 2 then
    some ⟨p.1, p.2, (fakeGroup g1 p).length,
      ((fakeGroup g1 p).map (fun r => r.totalValue)).headD 0,
      ((fakeGroup g1 p).map (fun r => r.totalValue)).sum⟩
  else none

/-- `detect_fake_invoices`: filter, group by pair, flag, sort by flagged
total value descending. -/
def detectFakeInvoices (g1 : List G1Row) : List FakeInvoiceResult :=
  sortDescBy (fun e => e.totalValue)
    (((fakeSuspicious g1).map (fun r => (r.supplier, r.receiver))).dedup.filterMap
      (mkFakeResult g1))

/-- C8: a pair is flagged exactly when it has at least 3 suspicious invoices
with at most 2 distinct amounts; the reported `repeated_count` is that
group's size; and five invoices of exactly 600000 from X to Y yield the
single flagged pair (X, Y) with `repeated_count = 5`. -/
theorem detectFakeInvoices_spec (g1 : List G1Row) (s r : String) :
    ((∃ e ∈ detectFakeInvoices g1, e.supplierGstin = s ∧ e.receiverGstin = r) ↔
      (3 ≤ (g1.filter (fun x =>
          (x.supplier == s && x.receiver == r) && isSuspiciousValue x.totalValue)).length
        ∧ ((g1.filter (fun x =>
            (x.supplier == s && x.receiver == r) && isSuspiciousValue x.totalValue)).map
              (fun x => x.totalValue)).dedup.length ≤ 2))
    ∧ (∀ e ∈ detectFakeInvoices g1, e.supplierGstin = s → e.receiverGstin = r →
        e.repeatedCount = (g1.filter (fun x =>
          (x.supplier == s && x.receiver == r) && isSuspiciousValue x.totalValue)).length)
    ∧ detectFakeInvoices
        [⟨"F1", "X", "Y", 600000, 0⟩, ⟨"F2", "X", "Y", 600000, 0⟩,
         ⟨"F3", "X", "Y", 600000, 0⟩, ⟨"F4", "X", "Y", 600000, 0⟩,
         ⟨"F5", "X", "Y", 600000, 0⟩] =
      [⟨"X", "Y", 5, 600000, 3000000⟩] := by
  have hgrp : fakeGroup g1 (s, r) = g1.filter (fun x =>
      (x.supplier == s && x.receiver == r) && isSuspiciousValue x.totalValue) :=
    List.filter_filter _ g1
  have hmem : ∀ e, e ∈ detectFakeInvoices g1 ↔
      ∃ p ∈ ((fakeSuspicious g1).map (fun x => (x.supplier, x.receiver))).dedup,
        mkFakeResult g1 p = some e := by
    intro e
    rw [detectFakeInvoices, mem_sortDescBy, List.mem_filterMap]
  refine ⟨⟨?_, ?_⟩, ?_, by decide⟩
  · rintro ⟨e, he, hes, her⟩
    rcases (hmem e).mp he with ⟨p, -, hsome⟩
    rw [mkFakeResult] at hsome
    split at hsome
    · rename_i hcond
      have hep : e = ⟨p.1, p.2, (fakeGroup g1 p).length,
          ((fakeGroup g1 p).map (fun x => x.totalValue)).headD 0,
          ((fakeGroup g1 p).map (fun x => x.totalValue)).sum⟩ :=
        (Option.some.injEq _ _ ▸ hsome).symm
      have hp : p = (s, r) := by
        have h1 : p.1 = s := by rw [← hes, hep]
        have h2 : p.2 = r := by rw [← her, hep]
        exact Prod.ext h1 h2
      rw [hp, hgrp] at hcond
      exact hcond
    · exact absurd hsome (by simp)
  · rintro ⟨hlen, hdedup⟩
    have hne : fakeGroup g1 (s, r) ≠ [] := by
      intro h
      rw [hgrp] at h
      rw [h] at hlen
      exact absurd hlen (by simp)
    obtain ⟨x, hx⟩ := List.exists_mem_of_ne_nil _ hne
    rw [fakeGroup, List.mem_filter] at hx
    have hxs : x.supplier = s ∧ x.receiver = r := by
      have := hx.2
      rw [Bool.and_eq_true] at this
      exact ⟨by simpa using this.1, by simpa using this.2⟩
    have hpmem : (s, r) ∈
        ((fakeSuspicious g1).map (fun x => (x.supplier, x.receiver))).dedup := by
      rw [List.mem_dedup]
      exact List.mem_map.mpr ⟨x, hx.1, by rw [hxs.1, hxs.2]⟩
    have hcond : 3 ≤ (fakeGroup g1 (s, r)).length ∧
        ((fakeGroup g1 (s, r)).map (fun x => x.totalValue)).dedup.length ≤ 2 := by
      rw [hgrp]
      exact ⟨hlen, hdedup⟩
    refine ⟨⟨s, r, (fakeGroup g1 (s, r)).length,
        ((fakeGroup g1 (s, r)).map (fun x => x.totalValue)).headD 0,
        ((fakeGroup g1 (s, r)).map (fun x => x.totalValue)).sum⟩,
      (hmem _).mpr ⟨(s, r), hpmem, by rw [mkFakeResult, if_pos hcond]⟩, rfl, rfl⟩
  · intro e he hes her
    rcases (hmem e).mp he with ⟨p, -, hsome⟩
    rw [mkFakeResult] at hsome
    split at hsome
    · have hep : e = ⟨p.1, p.2, (fakeGroup g1 p).length,
          ((fakeGroup g1 p).map (fun x => x.totalValue)).headD 0,
          ((fakeGroup g1 p).map (fun x => x.totalValue)).sum⟩ :=
        (Option.some.injEq _ _ ▸ hsome).symm
      have hp : p = (s, r) := by
        have h1 : p.1 = s := by rw [← hes, hep]
        have h2 : p.2 = r := by rw [← her, hep]
        exact Prod.ext h1 h2
      rw [hep]
      show (fakeGroup g1 p).length = _
      rw [hp, hgrp]
    · exact absurd hsome (by simp)

/-! ## Circular-trading detection (`fraud.py`, `detect_circular_trading`)

The Cypher pattern `(start)-[:INVOICE*k]->(start)` enumerates directed walks
of exactly `k` relationships from a node back to itself, each relationship
used at most once per path (Cypher relationship uniqueness). -/

/-- All relationship-unique walks of `k` edges from `cur` to `target`. -/
def pathsTo (G : List GEdge) (target : String) :
    ℕ → String → List GEdge → List (List GEdge)
  | 0, cur, _ => if cur == target then [[]] else []
  | k + 1, cur, used =>
      (G.filter (fun e => e.src == cur && !(used.contains e))).flatMap
        (fun e => (pathsTo G target k e.dst (e :: used)).map (fun es => e :: es))

/-- The Taxpayer nodes of the graph. -/
def graphNodes (G : List GEdge) : List String :=
  (G.flatMap (fun e => [e.src, e.dst])).dedup

/-- All closed walks of exactly `k` relationships, grouped by start node. -/
def cyclesOfLength (G : List GEdge) (k : ℕ) : List (List GEdge) :=
  (graphNodes G).flatMap (fun s => pathsTo G s k s [])

/-- One surfaced cycle: chain (path nodes minus the repeated start),
circular value (edge values summed, rounded to 2 decimals), edge list. -/
structure CycleResult where
  chain : List String
  chainLength : ℕ
  circularValue : ℚ
  edges : List GEdge
deriving DecidableEq, Repr

def mkCycleResult (es : List GEdge) : CycleResult :=
  ⟨es.map (fun e => e.src), es.length,
    pyRound 2 ((es.map (fun e => e.totalValue)).sum), es⟩

/-- The label filter: when circular-fraud labels exist, only surface cycles
containing a labeled GSTIN; with no labels every cycle passes. -/
def cycleLabelOk (labels : List String) (es : List GEdge) : Bool :=
  labels.isEmpty || (es.map (fun e => e.src)).any (fun g => labels.contains g)

/-- The inner record loop: append each surviving cycle, stopping at 50. -/
def addCycleResults (labels : List String) (acc : List CycleResult)
    (recs : List (List GEdge)) : List CycleResult :=
  recs.foldl (fun a es =>
    if 50 ≤ a.length then a
    else if cycleLabelOk labels es then a ++ [mkCycleResult es] else a) acc

/-- `detect_circular_trading`: cycle lengths 3 to 6, 200 records per query
(`LIMIT 200`), at most 50 surfaced results, sorted by value descending. -/
def detectCircularTrading (G : List GEdge) (labels : List String) :
    List CycleResult :=
  sortDescBy (fun c => c.circularValue)
    ([3, 4, 5, 6].foldl (fun a k =>
      if 50 ≤ a.length then a
      else addCycleResults labels a ((cyclesOfLength G k).take 200)) [])

theorem pathsTo_subset (G : List GEdge) (target : String) :
    ∀ (k : ℕ) (cur : String) (used : List GEdge) (es : List GEdge),
      es ∈ pathsTo G target k cur used → ∀ e ∈ es, e ∈ G := by
  intro k
  induction k with
  | zero =>
    intro cur used es hes e he
    rw [pathsTo] at hes
    split at hes
    · rcases List.mem_singleton.mp hes with h
      subst h
      exact absurd he (List.not_mem_nil e)
    · exact absurd hes (List.not_mem_nil es)
  | succ k ih =>
    intro cur used es hes e he
    rw [pathsTo] at hes
    rcases List.mem_flatMap.mp hes with ⟨e', he', hes'⟩
    rcases List.mem_map.mp hes' with ⟨es'', hes'', heq⟩
    subst heq
    rcases List.mem_cons.mp he with h | h
    · exact h ▸ (List.mem_filter.mp he').1
    · exact ih e'.dst (e' :: used) es'' hes'' e h

theorem foldl_mem_preserve {α β : Type} (p : α → Prop) (f : List α → β → List α)
    (l : List β) :
    (∀ a b, b ∈ l → (∀ c ∈ a, p c) → ∀ c ∈ f a b, p c) →
    ∀ acc, (∀ c ∈ acc, p c) → ∀ c ∈ l.foldl f acc, p c := by
  induction l with
  | nil => intro _ acc hacc c hc; exact hacc c hc
  | cons b bs ih =>
    intro hf acc hacc
    rw [List.foldl_cons]
    exact ih (fun a b' hb' => hf a b' (List.mem_cons_of_mem _ hb'))
      (f acc b) (hf acc b (List.mem_cons_self _ _) hacc)

/-- C2: every surfaced cycle's circular value is the rounded sum of its
listed edges' values, and every edge of the cycle (hence every invoice id
it reports) is an edge of the transaction graph. -/
theorem detectCircularTrading_sound (G : List GEdge) (labels : List String)
    (c : CycleResult) (hc : c ∈ detectCircularTrading G labels) :
    c.circularValue = pyRound 2 ((c.edges.map (fun e => e.totalValue)).sum)
    ∧ ∀ e ∈ c.edges, e ∈ G := by
  rw [detectCircularTrading, mem_sortDescBy] at hc
  refine foldl_mem_preserve
    (fun c => c.circularValue = pyRound 2 ((c.edges.map (fun e => e.totalValue)).sum)
      ∧ ∀ e ∈ c.edges, e ∈ G) _ [3, 4, 5, 6] ?_ [] (by simp) c hc
  intro a k hk hacc c' hc'
  by_cases hfifty : 50 ≤ a.length
  · rw [if_pos hfifty] at hc'
    exact hacc c' hc'
  · rw [if_neg hfifty] at hc'
    refine foldl_mem_preserve _ _ ((cyclesOfLength G k).take 200) ?_ a hacc c' hc'
    intro a' es hes hacc' c'' hc''
    by_cases hfifty' : 50 ≤ a'.length
    · rw [if_pos hfifty'] at hc''
      exact hacc' c'' hc''
    · rw [if_neg hfifty'] at hc''
      split at hc''
      · rcases List.mem_append.mp hc'' with h | h
        · exact hacc' c'' h
        · have hc : c'' = mkCycleResult es := List.mem_singleton.mp h
          subst hc
          refine ⟨rfl, ?_⟩
          have hcyc : es ∈ cyclesOfLength G k :=
            List.Sublist.mem hes (List.take_sublist 200 _)
          rcases List.mem_flatMap.mp hcyc with ⟨snode, -, hpath⟩
          exact pathsTo_subset G snode k snode [] es hpath
      · exact hacc' c'' hc''

/-- Witness for `detectCircularTrading_sound` on the three-entity ring
A→B→C→A of ₹3,000,000 each. -/
theorem detectCircularTrading_sound_witness :
    (⟨["A", "B", "C"], 3, 9000000,
        [⟨"A", "B", "C1", 3000000, 0⟩, ⟨"B", "C", "C2", 3000000, 0⟩,
         ⟨"C", "A", "C3", 3000000, 0⟩]⟩ : CycleResult) ∈
      detectCircularTrading
        [⟨"A", "B", "C1", 3000000, 0⟩, ⟨"B", "C", "C2", 3000000, 0⟩,
         ⟨"C", "A", "C3", 3000000, 0⟩] []
    ∧ ((⟨["A", "B", "C"], 3, 9000000,
        [⟨"A", "B", "C1", 3000000, 0⟩, ⟨"B", "C", "C2", 3000000, 0⟩,
         ⟨"C", "A", "C3", 3000000, 0⟩]⟩ : CycleResult).circularValue =
        pyRound 2 (((⟨["A", "B", "C"], 3, 9000000,
          [⟨"A", "B", "C1", 3000000, 0⟩, ⟨"B", "C", "C2", 3000000, 0⟩,
           ⟨"C", "A", "C3", 3000000, 0⟩]⟩ : CycleResult).edges.map
            (fun e => e.totalValue)).sum)
      ∧ ∀ e ∈ (⟨["A", "B", "C"], 3, 9000000,
          [⟨"A", "B", "C1", 3000000, 0⟩, ⟨"B", "C", "C2", 3000000, 0⟩,
           ⟨"C", "A", "C3", 3000000, 0⟩]⟩ : CycleResult).edges,
          e ∈ [⟨"A", "B", "C1", 3000000, 0⟩, ⟨"B", "C", "C2", 3000000, 0⟩,
            ⟨"C", "A", "C3", 3000000, 0⟩]) :=
  ⟨by decide,
    detectCircularTrading_sound
      [⟨"A", "B", "C1", 3000000, 0⟩, ⟨"B", "C", "C2", 3000000, 0⟩,
       ⟨"C", "A", "C3", 3000000, 0⟩] [] _ (by decide)⟩

/-! ## Reciprocal-trading detection (`fraud.py`, `detect_reciprocal_trading`)

The Cypher pattern `(a)-[r1:INVOICE]->(b)-[r2:INVOICE]->(a) WHERE
elementId(a) < elementId(b)` yields one record per pair of opposite
relationships `(r1, r2)`; the opaque `elementId` order is modelled as an
injection `eid` of node ids into the naturals. -/

/-- One record of the reciprocal-trading result. -/
structure RecipResult where
  partyA : String
  partyB : String
  aToBValue : ℚ
  bToAValue : ℚ
  aToBInvoice : String
  bToAInvoice : String
deriving DecidableEq, Repr

/-- The Cypher match: every `(r1, r2)` with `r2` opposite to `r1` and the
canonical `elementId` orientation. -/
def reciprocalRecords (G : List GEdge) (eid : String → ℕ) : List RecipResult :=
  G.flatMap (fun r1 =>
    if eid r1.src < eid r1.dst then
      (G.filter (fun r2 => r2.src == r1.dst && r2.dst == r1.src)).map (fun r2 =>
        ⟨r1.src, r1.dst, pyRound 2 r1.totalValue, pyRound 2 r2.totalValue,
          r1.invoiceId, r2.invoiceId⟩)
    else [])

/-- `detect_reciprocal_trading`: the records sorted by combined value. -/
def detectReciprocalTrading (G : List GEdge) (eid : String → ℕ) :
    List RecipResult :=
  sortDescBy (fun x => x.aToBValue + x.bToAValue) (reciprocalRecords G eid)

/-- A result row reports the unordered pair `{a, b}`. -/
def pairMatches (a b : String) (x : RecipResult) : Bool :=
  (x.partyA == a && x.partyB == b) || (x.partyA == b && x.partyB == a)

/-- C4 counterexample: with two invoices A→B and one B→A, the unordered
pair {A, B} is reported twice, once per (A→B, B→A) relationship
combination. -/
theorem reciprocal_duplicate_counterexample :
    ((detectReciprocalTrading
        [⟨"A", "B", "R1", 100, 0⟩, ⟨"A", "B", "R2", 200, 0⟩,
         ⟨"B", "A", "R3", 150, 0⟩]
        (fun s => if s == "B" then 1 else 0)).countP (pairMatches "A" "B")) = 2 := by
  decide

theorem sum_map_ite_count {α : Type} (n : ℕ) (q : α → Bool) (l : List α) :
    (l.map (fun e => if q e = true then n else 0)).sum = n * l.countP q := by
  induction l with
  | nil => simp
  | cons e es ih =>
    rw [List.map_cons, List.sum_cons, ih]
    by_cases hq : q e = true
    · rw [if_pos hq, List.countP_cons_of_pos _ _ hq, Nat.mul_succ]
      omega
    · rw [if_neg hq, List.countP_cons_of_neg _ _ hq, Nat.zero_add]

/-- C4 amended: reciprocal detection reports one record per ordered
combination of an A→B relationship with a B→A relationship, so the
unordered pair {a, b} appears exactly (#edges a→b) · (#edges b→a) times —
once when each direction has a single invoice, several times when parallel
invoices exist. -/
theorem reciprocal_pair_count (G : List GEdge) (eid : String → ℕ) (a b : String)
    (hab : eid a < eid b) :
    (detectReciprocalTrading G eid).countP (pairMatches a b) =
      (G.countP (fun e => e.src == a && e.dst == b)) *
        (G.countP (fun e => e.src == b && e.dst == a)) := by
  rw [detectReciprocalTrading,
    List.Perm.countP_eq (pairMatches a b)
      (sortDescBy_perm (fun x : RecipResult => x.aToBValue + x.bToAValue)
        (reciprocalRecords G eid)),
    reciprocalRecords, List.countP_flatMap]
  have hpt : ∀ r1 : GEdge,
      (List.countP (pairMatches a b) ∘ fun r1 =>
        if eid r1.src < eid r1.dst then
          (G.filter (fun r2 => r2.src == r1.dst && r2.dst == r1.src)).map (fun r2 =>
            (⟨r1.src, r1.dst, pyRound 2 r1.totalValue, pyRound 2 r2.totalValue,
              r1.invoiceId, r2.invoiceId⟩ : RecipResult))
        else []) r1 =
      if (r1.src == a && r1.dst == b) = true then
        G.countP (fun e => e.src == b && e.dst == a) else 0 := by
    intro r1
    by_cases h1 : r1.src = a ∧ r1.dst = b
    · rw [if_pos (by simp [h1.1, h1.2])]
      show List.countP _ (if eid r1.src < eid r1.dst then _ else []) = _
      rw [if_pos (by rw [h1.1, h1.2]; exact hab), List.countP_map]
      rw [show (fun r2 : GEdge => r2.src == r1.dst && r2.dst == r1.src) =
        (fun r2 : GEdge => r2.src == b && r2.dst == a) from by
          funext r2
          rw [h1.1, h1.2]]
      have hconst : ∀ x ∈ G.filter (fun r2 : GEdge => r2.src == b && r2.dst == a),
          (pairMatches a b ∘ fun r2 : GEdge =>
            (⟨r1.src, r1.dst, pyRound 2 r1.totalValue, pyRound 2 r2.totalValue,
              r1.invoiceId, r2.invoiceId⟩ : RecipResult)) x = true := by
        intro r2 _
        show pairMatches a b _ = true
        rw [pairMatches]
        simp [h1.1, h1.2]
      rw [List.countP_eq_length.mpr hconst, ← List.countP_eq_length_filter]
    · rw [if_neg (by
        intro hcon
        rw [Bool.and_eq_true, beq_iff_eq, beq_iff_eq] at hcon
        exact h1 hcon)]
      show List.countP _ (if eid r1.src < eid r1.dst then _ else []) = 0
      by_cases heid : eid r1.src < eid r1.dst
      · rw [if_pos heid, List.countP_map, List.countP_eq_zero]
        intro r2 hr2
        show ¬ pairMatches a b _ = true
        rw [pairMatches]
        simp only [Bool.or_eq_true, Bool.and_eq_true, beq_iff_eq]
        rintro (⟨hsa, hdb⟩ | ⟨hsb, hda⟩)
        · exact h1 ⟨hsa, hdb⟩
        · rw [hsb, hda] at heid
          exact absurd hab (Nat.lt_asymm heid)
      · rw [if_neg heid]
        rfl
  rw [List.map_congr_left (fun r1 _ => hpt r1), sum_map_ite_count, Nat.mul_comm]

/-- Witness for `reciprocal_pair_count` on the two-parallel-invoice graph. -/
theorem reciprocal_pair_count_witness :
    ((fun s : String => if s == "B" then 1 else 0) "A" <
      (fun s : String => if s == "B" then 1 else 0) "B")
    ∧ (detectReciprocalTrading
        [⟨"A", "B", "R1", 100, 0⟩, ⟨"A", "B", "R2", 200, 0⟩,
         ⟨"B", "A", "R3", 150, 0⟩]
        (fun s : String => if s == "B" then 1 else 0)).countP (pairMatches "A" "B") =
      (([⟨"A", "B", "R1", 100, 0⟩, ⟨"A", "B", "R2", 200, 0⟩,
         ⟨"B", "A", "R3", 150, 0⟩] : List GEdge).countP
          (fun e => e.src == "A" && e.dst == "B")) *
        (([⟨"A", "B", "R1", 100, 0⟩, ⟨"A", "B", "R2", 200, 0⟩,
           ⟨"B", "A", "R3", 150, 0⟩] : List GEdge).countP
            (fun e => e.src == "B" && e.dst == "A")) :=
  ⟨by decide,
    reciprocal_pair_count
      [⟨"A", "B", "R1", 100, 0⟩, ⟨"A", "B", "R2", 200, 0⟩, ⟨"B", "A", "R3", 150, 0⟩]
      (fun s : String => if s == "B" then 1 else 0) "A" "B" (by decide)⟩

end TaxGraph
